import Mathlib

/-!
Shallow embedding of the traffic-fork engine (package `forktraffic`,
file `src/forktraffic/forktraffic.go`, with its caller `src/redirector.go`).

Modelling conventions, used throughout:
* Go strings are modelled as Lean `String`; all the strings handled by the
  engine (cookie names, session keys, URL paths) are ASCII, where Go's
  byte-wise operations and Lean's character-wise operations coincide.
  Where a claim speaks of bytes of a path we model the path as `List Nat`
  (one `Nat` per byte).
* Go `int64` epoch-millisecond timestamps and `int` Max-Age values are
  modelled as `Int`; the engine never exercises 64-bit wraparound only
  these quantities.  The one place where unsigned 64-bit wraparound is
  observable (the request-id prefix of `Init`) is modelled with an
  explicit `% 2^64`.
* `time.Now()` results are passed in as explicit parameters, one per
  call site of `time.Now()` in the source.
* Results of `crypto/rand` draws are passed in as explicit parameters.
  `randInt` (forktraffic.go:32) panics via `rand.Int` when its bound is
  not positive; a draw is therefore modelled as `Option`-valued: `none`
  is the panic.
* The Go map `CacheData map[string]*StagKeys` is modelled as an
  association list without duplicate keys; lookup, insert and erase are
  the usual association-list operations.
* The `container/heap` operations used on `tokenExpirationQueue` are
  modelled positionally on a `List`: the `index` field of the Go struct
  is exactly the position of the element in the backing slice, so it is
  not reproduced as data.
-/

namespace ForkTraffic

/-- Model of `strings.EqualFold` restricted to the ASCII strings the engine compares
(cookie and header names): case-insensitive equality, character by
character (`Char.toLower` is the identity beyond ASCII letters, matching
Go's simple fold on the ASCII range). -/
def eqFold (a b : String) : Bool :=
  a.data.map Char.toLower == b.data.map Char.toLower

/-- Go byte slicing `s[:n]` on ASCII strings. -/
def goTake (s : String) (n : Nat) : String :=
  String.mk (s.data.take n)

/-- Go byte slicing `s[n:]` on ASCII strings. -/
def goDrop (s : String) (n : Nat) : String :=
  String.mk (s.data.drop n)

/-- Go `len(s)` on ASCII strings. -/
def goLen (s : String) : Nat :=
  s.data.length

/-- Single-separator split of a character list, the semantics of Go
`strings.Split(s, sep)` for a one-character separator. -/
def splitListOn (sep : Char) : List Char → List (List Char)
  | [] => [[]]
  | c :: rest =>
      let r := splitListOn sep rest
      if c = sep then [] :: r
      else (c :: r.headD []) :: r.tail

/-- Go `strings.Split(s, ";")`. -/
def goSplitSemicolon (s : String) : List String :=
  (splitListOn (Char.ofNat 59) s.data).map String.mk

/-- Go `strings.TrimSpace` on the ASCII strings the engine trims. -/
def goTrim (s : String) : String :=
  String.mk
    (((s.data.dropWhile Char.isWhitespace).reverse.dropWhile
      Char.isWhitespace).reverse)

/-- Go constant `httpNameHeader` (forktraffic.go:39). -/
def httpNameHeader : String := "Http-Splitter"

/-- Go constant `httpForwardedHeader` (forktraffic.go:40). -/
def httpForwardedHeader : String := "X-Forwarded-By"

/-- Go constant `httpDuplicateHeader` (forktraffic.go:41). -/
def httpDuplicateHeader : String := "X-Duplicate-By"

/-- Model of `StagKeys` (forktraffic.go:54): the session-identity entry cached per
production session key. -/
structure StagKeys where
  sessionKey : String := ""
  sessionTtl : String := ""
  csrfToken : String := ""
  Expiration : Int := 0
deriving DecidableEq, Inhabited

/-- An HTTP cookie as the engine consumes it: `Name`, `Value`, and (for
response cookies) `Expires` already converted to epoch milliseconds by
`UnixMs`, plus `MaxAge`.  Request cookies carry only name and value. -/
structure Cookie where
  name : String := ""
  value : String := ""
  expiresMs : Int := 0
  maxAge : Int := 0
deriving DecidableEq, Inhabited

/-- An HTTP response as `cacheResponse` consumes it: the status code and
the parsed `Set-Cookie` cookies (`resp.Cookies()`). -/
structure HttpResponse where
  statusCode : Nat := 200
  cookies : List Cookie := []
deriving DecidableEq, Inhabited

/-- Lookup in the `CacheData` map (Go `reqMgr.CacheData[key]`; a missing
key yields the nil pointer, modelled as `none`). -/
def lookupSK (m : List (String × StagKeys)) (k : String) : Option StagKeys :=
  match m.find? (fun p => p.1 == k) with
  | some p => some p.2
  | none => none

/-- Insert/overwrite in the `CacheData` map (Go `reqMgr.CacheData[key] = v`). -/
def insertSK (m : List (String × StagKeys)) (k : String) (v : StagKeys) :
    List (String × StagKeys) :=
  if (m.find? (fun p => p.1 == k)).isSome then
    m.map (fun p => if p.1 == k then (k, v) else p)
  else
    m ++ [(k, v)]

/-- Erase from the `CacheData` map (Go `delete(reqMgr.CacheData, key)`). -/
def eraseSK (m : List (String × StagKeys)) (k : String) :
    List (String × StagKeys) :=
  m.filter (fun p => ¬(p.1 == k))

/-! ## The expiration priority queue (forktraffic.go:61-102)

`tokenExpiration` carries an expiration time and a token; the Go `index`
field is the position in the backing slice and is implicit here. `Less`
(forktraffic.go:74) compares times (its nil-pointer guards never fire:
the queue only ever stores live pointers). The `container/heap` library
operations `Push` and `Fix` are transliterated positionally: `Push`
appends and sifts up; `Fix` sifts down and, when nothing moved, sifts up.
-/

/-- Element of `tokenExpirationQueue` (forktraffic.go:61). -/
structure TokenExpiration where
  time : Int := 0
  token : String := ""
deriving DecidableEq, Inhabited

/-- Model of `tokenExpirationQueue.Less` (forktraffic.go:74) on live elements. -/
def teqLess (a b : TokenExpiration) : Bool :=
  a.time < b.time

/-- Swap two positions of the queue (`tokenExpirationQueue.Swap`,
forktraffic.go:77); the `index` fields become the new positions. -/
def swapTE (l : List TokenExpiration) (i j : Nat) : List TokenExpiration :=
  (l.set i (l.getD j default)).set j (l.getD i default)

theorem length_swapTE (l : List TokenExpiration) (i j : Nat) :
    (swapTE l i j).length = l.length := by
  simp [swapTE]

/-- Model of `container/heap`'s `up` loop, started at position `j`. -/
def siftUp (l : List TokenExpiration) (j : Nat) : List TokenExpiration :=
  if j = 0 then l
  else
    let i := (j - 1) / 2
    if teqLess (l.getD j default) (l.getD i default) then
      siftUp (swapTE l i j) i
    else l
termination_by j
decreasing_by
  simp_wf
  omega

/-- Model of `container/heap`'s `down` loop, started at position `i`; the `Bool`
records whether any swap happened (Go's `i > i0` result). -/
def siftDown (l : List TokenExpiration) (i : Nat) :
    List TokenExpiration × Bool :=
  let n := l.length
  let j1 := 2 * i + 1
  if h : j1 < n then
    let j2 := j1 + 1
    let j := if j2 < n ∧ teqLess (l.getD j2 default) (l.getD j1 default)
             then j2 else j1
    if teqLess (l.getD j default) (l.getD i default) then
      let r := siftDown (swapTE l i j) j
      (r.1, true)
    else (l, false)
  else (l, false)
termination_by l.length - i
decreasing_by
  simp_wf
  simp only [length_swapTE]
  split <;> omega

/-- Model of `heap.Fix` (used through `tokenExpirationQueue.update`): sift down
from `i`; if nothing moved, sift up from `i`. -/
def heapFix (l : List TokenExpiration) (i : Nat) : List TokenExpiration :=
  let r := siftDown l i
  if r.2 then r.1 else siftUp l i

/-- Model of `heap.Push`: append the element and sift it up. -/
def heapPush (l : List TokenExpiration) (x : TokenExpiration) :
    List TokenExpiration :=
  siftUp (l ++ [x]) l.length

/-- Model of `tokenExpirationQueue.update` (forktraffic.go:98) applied to the
element at position `i`: overwrite its token and time, then `heap.Fix`. -/
def teqUpdate (l : List TokenExpiration) (i : Nat) (token : String)
    (time : Int) : List TokenExpiration :=
  heapFix (l.set i { time := time, token := token }) i

/-- The heap-insertion step of `cacheResponse` for a newly allocated entry
(forktraffic.go:219-250), transliterated.  `cacheData` is the cache as it
stands at that point (it already contains the new key, inserted at
forktraffic.go:217).  `tNow` is the `UnixMs(time.Now())` taken at
forktraffic.go:207. -/
def heapInsertWithReuse (cacheData : List (String × StagKeys))
    (teq : List TokenExpiration) (prodSessionKey : String)
    (prodKeyExpiration tNow : Int) : List TokenExpiration :=
  let listItem : TokenExpiration :=
    { time := prodKeyExpiration, token := prodSessionKey }
  if teq.length > 0 then
    let item := teq.getD 0 default
    if item.token == prodSessionKey then
      teqUpdate teq 0 prodSessionKey prodKeyExpiration
    else if item.time ≤ tNow then
      match lookupSK cacheData item.token with
      | none => teqUpdate teq 0 prodSessionKey prodKeyExpiration
      | some firstKey =>
          if firstKey.Expiration ≤ tNow then
            teqUpdate teq 0 prodSessionKey prodKeyExpiration
          else
            heapPush (teqUpdate teq 0 item.token firstKey.Expiration) listItem
    else
      heapPush teq listItem
  else
    heapPush teq listItem

/-- Claim-side helper: does the cache still hold `token` with a live
(strictly future) expiration? -/
def cacheHoldsLive (cacheData : List (String × StagKeys)) (token : String)
    (tNow : Int) : Bool :=
  match lookupSK cacheData token with
  | none => false
  | some k => decide (tNow < k.Expiration)

/-- Claim-side helper: the cache's current expiration for `token`. -/
def cacheCurrentExpiration (cacheData : List (String × StagKeys))
    (token : String) : Int :=
  match lookupSK cacheData token with
  | some k => k.Expiration
  | none => 0

/-- The heap-insertion step as claim C5 describes it, written from the
claim's words: on a non-empty heap, inspect the root; if its token is
the inserted key, update the root in place with the new expiration and
re-heapify; else if the root is expired and the cache no longer holds
its token live, reuse the root slot (overwrite token and expiration,
re-heapify); else if the root is expired but its token is still live,
update the root's expiration to the cache's current value and push a new
element; otherwise push a new element.  (On an empty heap both the code
and this description simply push.) -/
def heapInsertSpec (cacheData : List (String × StagKeys))
    (teq : List TokenExpiration) (key : String) (exp tNow : Int) :
    List TokenExpiration :=
  match teq with
  | [] => heapPush teq { time := exp, token := key }
  | root :: _ =>
      if root.token = key then
        heapFix (teq.set 0 { root with time := exp }) 0
      else if root.time ≤ tNow then
        if cacheHoldsLive cacheData root.token tNow then
          heapPush
            (heapFix
              (teq.set 0
                { root with
                  time := cacheCurrentExpiration cacheData root.token }) 0)
            { time := exp, token := key }
        else
          heapFix (teq.set 0 { time := exp, token := key }) 0
      else heapPush teq { time := exp, token := key }

/-! ## `cacheResponse` (forktraffic.go:166-252) -/

/-- Fetch the entry for the key from the cache, or allocate a fresh one;
the `Bool` is the `newKey` flag (forktraffic.go:174-180). -/
def baseEntry (cacheData : List (String × StagKeys)) (key : String) :
    Bool × StagKeys :=
  match lookupSK cacheData key with
  | none => (true, default)
  | some sk => (false, sk)

/-- The cookie scan of `cacheResponse` (forktraffic.go:183-197): fold the
staging response cookies over the entry, updating the field named by each
cookie and, on a `sessionKey` cookie, capturing its `Expires` (as epoch
milliseconds) and `Max-Age`.  Returns the scanned entry, the captured
expiration and the captured max-age (both start at 0). -/
def scanCookies (sk0 : StagKeys) (cookies : List Cookie) :
    StagKeys × Int × Int :=
  cookies.foldl
    (fun acc c =>
      let sk := acc.1
      if eqFold c.name "csrfToken" then
        ({ sk with csrfToken := c.value }, acc.2.1, acc.2.2)
      else if eqFold c.name "sessionKey" then
        ({ sk with sessionKey := c.value }, c.expiresMs, c.maxAge)
      else if eqFold c.name "sessionTtl" then
        ({ sk with sessionTtl := c.value }, acc.2.1, acc.2.2)
      else acc)
    (sk0, 0, 0)

/-- The expiration rule of `cacheResponse` (forktraffic.go:200-204):
a non-zero inbound production expiration that differs from the stored one
overwrites it; otherwise a zero stored expiration becomes now + 20
minutes (`tNowA` is the `UnixMs(time.Now())` of forktraffic.go:203). -/
def applyExpiration (sk : StagKeys) (prodKeyExpiration tNowA : Int) :
    StagKeys :=
  if prodKeyExpiration ≠ 0 ∧ sk.Expiration ≠ prodKeyExpiration then
    { sk with Expiration := prodKeyExpiration }
  else if sk.Expiration = 0 then
    { sk with Expiration := tNowA + 60 * 20000 }
  else sk

/-- The mutable state `cacheResponse` acts on: the `CacheData` map and the
`tokensExpirationList` heap of the `RequestManager`. -/
structure CacheState where
  cacheData : List (String × StagKeys) := []
  teq : List TokenExpiration := []
deriving DecidableEq, Inhabited

/-- Model of `RequestManager.cacheResponse` (forktraffic.go:166-252).  `tNowA` and
`tNow` are the results of the two `time.Now()` calls (lines 203 and 207).
Pointer semantics of the Go code are made explicit: for an existing key
the scanned/updated entry is written back to the map (the Go code mutates
the cached `*StagKeys` in place); the `resp != nil` guard of line 185 is
omitted because the caller always passes a non-nil response. -/
def cacheResponse (st : CacheState) (prodSessionKey : String)
    (resp : HttpResponse) (prodKeyExpiration tNowA tNow : Int) : CacheState :=
  if prodSessionKey = "" ∨ 400 ≤ resp.statusCode then st
  else
    let be := baseEntry st.cacheData prodSessionKey
    let newKey := be.1
    let scanned := scanCookies be.2 resp.cookies
    let stagKeyExpiration := scanned.2.1
    let stagKeyMaxAge := scanned.2.2
    let stagKey := applyExpiration scanned.1 prodKeyExpiration tNowA
    if stagKey.sessionKey = "" ∧
        ¬(stagKeyExpiration > tNow ∨ stagKeyMaxAge > 0) then
      { st with cacheData := eraseSK st.cacheData prodSessionKey }
    else if newKey then
      let cacheData1 := insertSK st.cacheData prodSessionKey stagKey
      { cacheData := cacheData1,
        teq := heapInsertWithReuse cacheData1 st.teq prodSessionKey
          prodKeyExpiration tNow }
    else
      { st with cacheData := insertSK st.cacheData prodSessionKey stagKey }

/-! ## `buildForwardRequest` (forktraffic.go:511-566) -/

/-- The parts of a Go `url.URL` the engine reads or writes. -/
structure GoUrl where
  scheme : String := ""
  host : String := ""
  path : String := ""
  rawQuery : String := ""
deriving DecidableEq, Inhabited

/-- The parts of an inbound `http.Request` the engine consumes: method,
URL path and query, headers (association list in Go's iteration order,
each with its value list), and the parsed `Cookie` header. -/
structure Request where
  method : String := "GET"
  urlPath : String := "/"
  urlRawQuery : String := ""
  headers : List (String × List String) := []
  cookies : List Cookie := []
deriving DecidableEq, Inhabited

/-- The staging-directed request as built by `buildForwardRequest`:
its URL (which aliases the manager's `UrlStaging`), `Host`, headers in
`Header.Add` order, and the cookies appended by `AddCookie`. -/
structure StagRequest where
  url : GoUrl := {}
  host : String := ""
  headers : List (String × String) := []
  cookies : List Cookie := []
deriving DecidableEq, Inhabited

/-- Value translation applied to each copied header value
(forktraffic.go:530-535): with a cache entry present, an `X-Csrf-Token`
value is replaced by the entry's staging CSRF token when that token is
non-empty. -/
def forwardHeaderVal (entry : Option StagKeys) (key val : String) : String :=
  match entry with
  | some sk =>
      if eqFold key "X-Csrf-Token" ∧ sk.csrfToken ≠ "" then sk.csrfToken
      else val
  | none => val

/-- The header-copy loop of `buildForwardRequest` (forktraffic.go:524-543):
skip `X-Forwarded-By`, translate each value, and add every value whose
key is not `Cookie`. -/
def buildHeaders (entry : Option StagKeys)
    (hs : List (String × List String)) : List (String × String) :=
  hs.foldl
    (fun acc kv =>
      if eqFold kv.1 httpForwardedHeader then acc
      else
        kv.2.foldl
          (fun acc2 v =>
            let v2 := forwardHeaderVal entry kv.1 v
            if eqFold kv.1 "Cookie" then acc2 else acc2 ++ [(kv.1, v2)])
          acc)
    []

/-- The per-cookie substitution of `buildForwardRequest`
(forktraffic.go:547-554): the three identity cookies take the cache
entry's corresponding value, unconditionally. -/
def substCookie (sk : StagKeys) (c : Cookie) : Cookie :=
  if eqFold c.name "csrfToken" then { c with value := sk.csrfToken }
  else if eqFold c.name "sessionKey" then { c with value := sk.sessionKey }
  else if eqFold c.name "sessionTtl" then { c with value := sk.sessionTtl }
  else c

/-- The cookie-rebuild block of `buildForwardRequest`
(forktraffic.go:545-560): it runs only when the cache entry exists
(`StagKeys != nil`); each cookie is substituted and added only if its
resulting value is non-empty.  With no cache entry, no cookie is added
(the `Cookie` header was also not copied by the header loop). -/
def rebuildCookies (entry : Option StagKeys) (cookies : List Cookie) :
    List Cookie :=
  match entry with
  | none => []
  | some sk => (cookies.map (substCookie sk)).filter (fun c => c.value ≠ "")

/-- The cookie rebuild as claim C2 states it, written from the claim's
words: an identity cookie is substituted only when the cache entry has a
corresponding NON-EMPTY value; cookies whose resulting value is empty
are dropped; every remaining inbound cookie — including all cookies when
no cache entry exists for the inbound production key — is added. -/
def rebuildCookiesClaim (entry : Option StagKeys) (cookies : List Cookie) :
    List Cookie :=
  let subst := fun (c : Cookie) =>
    match entry with
    | none => c
    | some sk =>
        if eqFold c.name "csrfToken" ∧ sk.csrfToken ≠ "" then
          { c with value := sk.csrfToken }
        else if eqFold c.name "sessionKey" ∧ sk.sessionKey ≠ "" then
          { c with value := sk.sessionKey }
        else if eqFold c.name "sessionTtl" ∧ sk.sessionTtl ≠ "" then
          { c with value := sk.sessionTtl }
        else c
  (cookies.map subst).filter (fun c => c.value ≠ "")

/-- The cookie rebuild as the code actually behaves (the amended claim
C2): when a cache entry exists for the inbound production key, each
identity cookie's value is replaced by the entry's corresponding value
even when that value is empty; cookies whose resulting value is empty
are dropped; the remaining cookies are added in order.  When no cache
entry exists, no cookie at all is added to the staging request. -/
def rebuildCookiesAmendedAux (sk : StagKeys) : List Cookie → List Cookie
  | [] => []
  | c :: t =>
      let v :=
        if eqFold c.name "csrfToken" then sk.csrfToken
        else if eqFold c.name "sessionKey" then sk.sessionKey
        else if eqFold c.name "sessionTtl" then sk.sessionTtl
        else c.value
      if v = "" then rebuildCookiesAmendedAux sk t
      else { c with value := v } :: rebuildCookiesAmendedAux sk t

/-- See `rebuildCookiesAmendedAux` for the per-cookie rule. -/
def rebuildCookiesAmended (entry : Option StagKeys) (cookies : List Cookie) :
    List Cookie :=
  match entry with
  | none => []
  | some sk => rebuildCookiesAmendedAux sk cookies

/-- Model of the SUCCESS PATH of `RequestManager.buildForwardRequest`
(forktraffic.go:511-566), reached when `http.NewRequest` accepts the
method and path.  `urlStaging` is the manager's shared `UrlStaging`; the
result's first component is that URL after the call (the Go code assigns
the pointer to `stagReq.URL` and then overwrites its `Path` in place, so
the manager's URL and the staging request's URL are one object; the
model returns the mutated value and makes the staging request carry the
same value).  The `http.NewRequest` error branch (forktraffic.go:
515-517), on which none of this happens, is modelled by
`buildForwardRequestChecked` below. -/
def buildForwardRequest (urlStaging : GoUrl)
    (cacheData : List (String × StagKeys)) (req : Request)
    (prodSessionKey : String) : GoUrl × StagRequest :=
  let newUrl : GoUrl := { urlStaging with path := req.urlPath }
  let entry := lookupSK cacheData prodSessionKey
  ( newUrl,
    { url := newUrl,
      host := urlStaging.host,
      headers := buildHeaders entry req.headers ++
        [(httpDuplicateHeader, httpNameHeader)],
      cookies := rebuildCookies entry req.cookies } )

/-- Model of `RequestManager.buildForwardRequest` (forktraffic.go:
511-566) INCLUDING the `http.NewRequest` error branch (forktraffic.go:
515-517).  `http.NewRequest(req.Method, req.URL.Path, stagBody)` runs
`url.Parse` on the decoded inbound path and errors on an invalid percent
escape or a control byte in it (both reachable: a client may send a raw
path decoding to such bytes, and `morfUri` may inject any byte in
`[0, 255]`); on that branch the function logs and returns `nil` BEFORE
the shared `UrlStaging` is assigned to the request or its `Path`
overwritten.  `newRequestOk` is the oracle for the outcome of that
parse, applied to the request path (the method comes from a parsed
inbound request and never fails).  The first component is the manager's
`UrlStaging` after the call; `none` is the `nil` return. -/
def buildForwardRequestChecked (newRequestOk : String → Bool)
    (urlStaging : GoUrl) (cacheData : List (String × StagKeys))
    (req : Request) (prodSessionKey : String) :
    GoUrl × Option StagRequest :=
  if newRequestOk req.urlPath then
    let r := buildForwardRequest urlStaging cacheData req prodSessionKey
    (r.1, some r.2)
  else
    (urlStaging, none)

/-! ## Intercept-side helpers and the pending record
(forktraffic.go:362-424) -/

/-- Model of `getSessionKey` (forktraffic.go:414): the value and `Expires` (epoch
milliseconds) of the first inbound cookie named `sessionKey`
(case-insensitively), or `("", 0)`. -/
def getSessionKey (cookies : List Cookie) : String × Int :=
  match cookies with
  | [] => ("", 0)
  | c :: rest =>
      if eqFold c.name "sessionKey" then (c.value, c.expiresMs)
      else getSessionKey rest

/-- The `Expires=` scan inside `getRespSessionKey` (forktraffic.go:395-404):
walk the remaining `;`-separated attributes; the first one whose trimmed
text starts (case-insensitively) with `Expires=` and whose remainder
parses under RFC1123 yields that time in epoch milliseconds; otherwise 0.
`parseRFC1123` models `time.Parse(time.RFC1123, ...)` followed by
`UnixMs`, with `none` as the error case. -/
def findExpires (parseRFC1123 : String → Option Int) :
    List String → Int
  | [] => 0
  | t :: rest =>
      let tok := goTrim t
      if goLen tok ≥ 8 ∧ eqFold (goTake tok 8) "Expires=" then
        match parseRFC1123 (goDrop tok 8) with
        | some ms => ms
        | none => findExpires parseRFC1123 rest
      else findExpires parseRFC1123 rest

/-- Model of `getRespSessionKey` (forktraffic.go:389-409): scan the raw
`Set-Cookie` header values of the production response for the first one
starting (case-insensitively) with `sessionKey=`; return the value up to
the first `;` together with its parsed `Expires` attribute (or 0). -/
def getRespSessionKey (parseRFC1123 : String → Option Int) :
    List String → String × Int
  | [] => ("", 0)
  | c :: rest =>
      if goLen c ≥ 11 ∧ eqFold (goTake c 11) "sessionKey=" then
        let tokens := goSplitSemicolon c
        let key := goDrop (tokens.headD "") 11
        (key, findExpires parseRFC1123 (tokens.drop 1))
      else getRespSessionKey parseRFC1123 rest

/-- Model of `PendingRequest` (forktraffic.go:105): the queued record.  The
captured request is reduced to the fields the modelled operations read
(`req.URL.Path` for the overflow log, cookies and headers for the
rebuild); the body reader is not modelled. -/
structure PendingRequest where
  req : Request := {}
  requestKey : String := ""
  sessionKey : String := ""
  keyExpires : Int := 0
deriving DecidableEq, Inhabited

/-- Model of `RequestManager.forwardHandler` (forktraffic.go:362-384): with a
configured staging URL, build the pending record: `requestKey` is the
inbound request's `sessionKey` cookie value, `sessionKey`/`keyExpires`
are parsed from the production response's `Set-Cookie` headers.  `none`
models the early return when staging is not configured. -/
def forwardHandler (parseRFC1123 : String → Option Int) (urlStaging : GoUrl)
    (req : Request) (respSetCookies : List String) : Option PendingRequest :=
  if urlStaging.scheme = "" ∨ urlStaging.host = "" then none
  else
    let upd := getRespSessionKey parseRFC1123 respSetCookies
    let prodSessionKey := (getSessionKey req.cookies).1
    some { req := req, requestKey := prodSessionKey,
           sessionKey := upd.1, keyExpires := upd.2 }

/-- The success path of `RequestManager.sendRequest`
(forktraffic.go:470-475): on a staging response, the cache update is
invoked as `cacheResponse(sendReq.sessionKey, resp, sendReq.keyExpires)`.
The response-body logging that follows does not touch the cache state. -/
def sendRequestCacheUpdate (st : CacheState) (sendReq : PendingRequest)
    (resp : HttpResponse) (tNowA tNow : Int) : CacheState :=
  cacheResponse st sendReq.sessionKey resp sendReq.keyExpires tNowA tNow

/-! ## The pending queue and `sendStaging` (forktraffic.go:430-450)

The channel `PendingRequests` (capacity `NumPendingRequests = 10000`,
redirector.go:38) is modelled as a FIFO list whose head is the oldest
element (the next one a receive takes).  The liveness flag is the ping
manager's `StatusOk`; the log is the list of messages emitted so far
(only the truncated path of each dropped request is recorded).  A channel
operation that would block — receiving from an empty channel, or sending
on a full one — has no sequential meaning and is modelled as `none`. -/

/-- Capacity of `PendingRequests` (`NumPendingRequests`, redirector.go:38). -/
def numPendingRequests : Nat := 10000

/-- The state `sendStaging` acts on: the queue (head = oldest), the
liveness flag, and the dropped-path log. -/
structure QueueState where
  pending : List PendingRequest := []
  statusOk : Bool := true
  logged : List String := []
deriving DecidableEq, Inhabited

/-- The path truncation of the overflow log (forktraffic.go:440-444):
`l := len(path); if l > 80 { l = 80 }; path[:l]`, i.e. the first at most
80 bytes of the path. -/
def logTrunc (s : String) : String :=
  String.mk (s.data.take 80)

/-- Model of `RequestManager.sendStaging` (forktraffic.go:430-450): when fewer
than 100 requests are queued, clear the liveness flag, receive (and log)
the oldest queued request, then send the new one; otherwise set the
liveness flag and send the new one. -/
def sendStaging (s : QueueState) (sendReq : PendingRequest) :
    Option QueueState :=
  if s.pending.length < 100 then
    match s.pending with
    | [] => none
    | delReq :: rest =>
        some { pending := rest ++ [sendReq],
               statusOk := false,
               logged := s.logged ++ [logTrunc delReq.req.urlPath] }
  else
    if s.pending.length < numPendingRequests then
      some { s with statusOk := true, pending := s.pending ++ [sendReq] }
    else none

/-! ## The morf hooks (forktraffic.go:294-338)

`randInt n` (forktraffic.go:32) calls `rand.Int(rand.Reader, n)`, which
panics when `n ≤ 0`; the drawn value is uniform in `[0, n)`.  Each draw
is modelled by an explicit parameter `d`: the draw succeeds with value
`d % n` when `n > 0` and is `none` (the panic) otherwise. -/

/-- Model of `randInt` (forktraffic.go:32) with its entropy made explicit. -/
def randInt (maxRand : Nat) (d : Nat) : Option Nat :=
  if maxRand = 0 then none else some (d % maxRand)

/-- Model of `morfUri` (forktraffic.go:294-302).  The path and the mutation base
are byte strings (`List Nat`).  `iCh` and `bNew` are the two draw
results; the Go code guarantees `iCh < path.length - base.length` and
`bNew < 256` (theorems state them as hypotheses).  Note the guard
mirrors Go's `l > len(morfUriBase) && path[:len(morfUriBase)] ==
morfUriBase`. -/
def morfUri (path base : List Nat) (iCh bNew : Nat) : List Nat :=
  if path.length > base.length ∧ path.take base.length = base then
    path.set (base.length + iCh) bNew
  else path

/-- The header value selected by `morfHeader`'s two first draws: the
`iHdr`-th header (in iteration order) and the `iVals`-th of its values.
`none` when a draw panics or indexing is out of range. -/
def selectedVal (hs : List (String × List String)) (d1 d2 : Nat) :
    Option String :=
  match randInt hs.length d1 with
  | none => none
  | some iHdr =>
      match hs[iHdr]? with
      | none => none
      | some kv =>
          match randInt kv.2.length d2 with
          | none => none
          | some iVals => kv.2[iVals]?

/-- In-place byte overwrite inside a header value
(`b[iVal] = byte(randInt(256))`, forktraffic.go:322-323). -/
def setChar (s : String) (i : Nat) (c : Char) : String :=
  String.mk (s.data.set i c)

/-- Model of `morfHeader` (forktraffic.go:308-338) with the four draw results
(`iHdr`, `iVals`, `iVal`, and the replacement byte) made explicit.  The
`Set`/`Add` rebuild of the selected header keeps all its values in order
with only the selected one mutated; all other headers are untouched.
Go map iteration order is fixed by the order of the modelled header
list.  `none` models a `randInt` panic. -/
def morfHeader (hs : List (String × List String)) (d1 d2 d3 d4 : Nat) :
    Option (List (String × List String)) :=
  match randInt hs.length d1 with
  | none => none
  | some iHdr =>
      match hs[iHdr]? with
      | none => none
      | some kv =>
          match randInt kv.2.length d2 with
          | none => none
          | some iVals =>
              match kv.2[iVals]? with
              | none => none
              | some val =>
                  match randInt val.length d3, randInt 256 d4 with
                  | some iVal, some bNew =>
                      let newVal := setChar val iVal (Char.ofNat bNew)
                      some (hs.set iHdr (kv.1, kv.2.set iVals newVal))
                  | _, _ => none

/-! ## The request-id prefix and counter (forktraffic.go:145-163) -/

/-- Model of `strconv.FormatUint(n, 16)`: lowercase hexadecimal with no leading
zeros (`"0"` for zero). -/
def formatUintHex (n : Nat) : String :=
  String.mk (Nat.toDigits 16 n)

/-- Model of `strconv.FormatInt(i, 16)` for a possibly negative `int64` value. -/
def formatIntHex (i : Int) : String :=
  if i < 0 then "-" ++ formatUintHex i.natAbs else formatUintHex i.toNat

/-- The per-process prefix computed by `Init` (forktraffic.go:147-148):
`FormatUint(i64rand.Uint64()+uint64(time.Now().UnixNano()), 16) + "-"`,
a 64-bit wrapping ADDITION of the random integer and the time.
`i64rand` and `tNanos` are the drawn integer and the nanosecond clock. -/
def initForwardPfx (i64rand tNanos : Nat) : String :=
  formatUintHex ((i64rand + tNanos) % 2 ^ 64) ++ "-"

/-- Modelled from the spec: the spec (and claim C8) say the random
integer is "XOR-combined with the current time"; this is that
combination, for comparison with `initForwardPfx`. -/
def initForwardPfxXor (i64rand tNanos : Nat) : String :=
  formatUintHex (Nat.xor i64rand tNanos % 2 ^ 64) ++ "-"

/-- 64-bit two's-complement wraparound, the semantics of
`atomic.AddInt64` on the Go `int64` counter. -/
def wrapInt64 (x : Int) : Int :=
  (x + 2 ^ 63) % 2 ^ 64 - 2 ^ 63

/-- The counter state of the request-id generator: `cacheId` starts at 0
(`Init`, forktraffic.go:146) and `forwardPfx` is the per-process
prefix. -/
structure ReqIdState where
  cacheId : Int := 0
  forwardPfx : String := ""
deriving DecidableEq, Inhabited

/-- Model of `RequestManager.createReqId` (forktraffic.go:160-163): atomically
increment the counter and append it in hex to the prefix. -/
def createReqId (s : ReqIdState) : ReqIdState × String :=
  let id := wrapInt64 (s.cacheId + 1)
  ({ s with cacheId := id }, s.forwardPfx ++ formatIntHex id)

/-- The state after `k` successive `createReqId` calls. -/
def createReqIdIter (s : ReqIdState) : Nat → ReqIdState
  | 0 => s
  | k + 1 => (createReqId (createReqIdIter s k)).1

/-! ## Supporting lemmas -/

theorem lookupSK_eraseSK (m : List (String × StagKeys)) (k : String) :
    lookupSK (eraseSK m k) k = none := by
  have h : (eraseSK m k).find? (fun p => p.1 == k) = none := by
    rw [List.find?_eq_none]
    intro x hx
    have hmem := List.of_mem_filter hx
    simpa using hmem
  simp [lookupSK, h]

theorem applyExpiration_sessionKey (sk : StagKeys) (p t : Int) :
    (applyExpiration sk p t).sessionKey = sk.sessionKey := by
  unfold applyExpiration
  split
  · rfl
  · split <;> rfl

theorem rebuildCookies_eq_amended (sk : StagKeys) (cookies : List Cookie) :
    rebuildCookies (some sk) cookies =
      rebuildCookiesAmended (some sk) cookies := by
  induction cookies with
  | nil => rfl
  | cons c t ih =>
      have hstep : rebuildCookies (some sk) (c :: t) =
          (if (substCookie sk c).value = "" then rebuildCookies (some sk) t
           else substCookie sk c :: rebuildCookies (some sk) t) := by
        show ((c :: t).map (substCookie sk)).filter (fun c => c.value ≠ "") =
          _
        rw [List.map_cons, List.filter_cons]
        by_cases hv : (substCookie sk c).value = "" <;>
          simp [hv, rebuildCookies]
      rw [hstep, ih]
      have haux : rebuildCookiesAmended (some sk) t =
          rebuildCookiesAmendedAux sk t := rfl
      rw [haux]
      show _ = rebuildCookiesAmendedAux sk (c :: t)
      by_cases h1 : eqFold c.name "csrfToken"
      · by_cases hv : sk.csrfToken = "" <;>
          simp [substCookie, rebuildCookiesAmendedAux, h1, hv]
      · by_cases h2 : eqFold c.name "sessionKey"
        · by_cases hv : sk.sessionKey = "" <;>
            simp [substCookie, rebuildCookiesAmendedAux, h1, h2, hv]
        · by_cases h3 : eqFold c.name "sessionTtl"
          · by_cases hv : sk.sessionTtl = "" <;>
              simp [substCookie, rebuildCookiesAmendedAux, h1, h2, h3, hv]
          · by_cases hv : c.value = "" <;>
              simp [substCookie, rebuildCookiesAmendedAux, h1, h2, h3, hv]

theorem createReqIdIter_cacheId (s : ReqIdState) (k : Nat)
    (h0 : s.cacheId = 0) (hk : (k : Int) < 2 ^ 63) :
    (createReqIdIter s k).cacheId = k := by
  induction k with
  | zero => simpa using h0
  | succ n ih =>
      have hn : (n : Int) < 2 ^ 63 := by push_cast at hk ⊢; omega
      have hih := ih hn
      show (createReqId (createReqIdIter s n)).1.cacheId = ((n + 1 : Nat) : Int)
      simp only [createReqId, hih, wrapInt64]
      push_cast at hk ⊢
      omega

theorem createReqIdIter_forwardPfx (s : ReqIdState) (k : Nat) :
    (createReqIdIter s k).forwardPfx = s.forwardPfx := by
  induction k with
  | zero => rfl
  | succ n ih => simpa [createReqIdIter, createReqId] using ih

/-! ## Claims -/

/-- Claim C6: an invocation of `cacheResponse` with an empty
production-session key, or with a staging response status of at least
400, leaves the session-identity cache and the expiration heap
completely unchanged. -/
theorem cacheResponse_error_unchanged (st : CacheState) (key : String)
    (resp : HttpResponse) (pExp tA tN : Int)
    (h : key = "" ∨ 400 ≤ resp.statusCode) :
    cacheResponse st key resp pExp tA tN = st := by
  unfold cacheResponse
  rw [if_pos h]

theorem cacheResponse_error_unchanged_witness :
    cacheResponse ⟨[("k", {})], []⟩ "" ⟨200, []⟩ 3 0 0 = ⟨[("k", {})], []⟩ :=
  cacheResponse_error_unchanged ⟨[("k", {})], []⟩ "" ⟨200, []⟩ 3 0 0
    (Or.inl rfl)

/-- Claim C1: `sendStaging` with queue length strictly below 100 clears
the liveness flag, removes exactly the head of the queue, logs that
request's URL path truncated to at most 80 bytes, and enqueues the new
request; with length at least 100 it sets the liveness flag and enqueues
without removing anything.  (The length-below-100 case is stated on a
non-empty queue: on an empty queue the Go channel receive blocks, which
has no sequential meaning.) -/
theorem sendStaging_spec :
    (∀ (s : QueueState) (r delReq : PendingRequest)
        (rest : List PendingRequest),
        s.pending = delReq :: rest → s.pending.length < 100 →
        sendStaging s r =
          some { pending := rest ++ [r], statusOk := false,
                 logged := s.logged ++ [logTrunc delReq.req.urlPath] } ∧
          (logTrunc delReq.req.urlPath).data.length ≤ 80) ∧
    (∀ (s : QueueState) (r : PendingRequest),
        100 ≤ s.pending.length → s.pending.length < numPendingRequests →
        sendStaging s r =
          some { s with statusOk := true, pending := s.pending ++ [r] }) := by
  constructor
  · intro s r delReq rest hpend hlen
    constructor
    · unfold sendStaging
      rw [if_pos hlen, hpend]
    · simp [logTrunc]
  · intro s r hge hlt
    unfold sendStaging
    rw [if_neg (by omega), if_pos hlt]

theorem sendStaging_spec_witness :
    (sendStaging ⟨[{}], true, []⟩ {} =
       some { pending := ([] : List PendingRequest) ++ [{}],
              statusOk := false,
              logged := [] ++ [logTrunc ({} : PendingRequest).req.urlPath] } ∧
      (logTrunc ({} : PendingRequest).req.urlPath).data.length ≤ 80) ∧
    sendStaging ⟨List.replicate 100 {}, false, []⟩ {} =
      some { (⟨List.replicate 100 {}, false, []⟩ : QueueState) with
             statusOk := true,
             pending := List.replicate 100 {} ++ [{}] } :=
  ⟨sendStaging_spec.1 ⟨[{}], true, []⟩ {} {} [] rfl (by simp),
   sendStaging_spec.2 ⟨List.replicate 100 {}, false, []⟩ {}
     (by simp) (by simp [numPendingRequests])⟩

/-- Counterexample to claim C10 as stated: "after every call the
manager's `UrlStaging.Path` equals the path of the request just
forwarded" fails on the reachable `http.NewRequest` error branch
(forktraffic.go:515-517).  Go's `url.Parse` rejects the decoded path
`/api/a%zz` (invalid percent escape, which a client reaches by sending
the raw path `/api/a%25zz`); on that call `buildForwardRequest` returns
`nil` before the shared URL is assigned or its path overwritten, so the
manager's `UrlStaging.Path` stays at its previous value `/base` instead
of becoming the path of the request just handled. -/
theorem buildForwardRequest_newRequest_err_cex :
    buildForwardRequestChecked (fun p => !(p == "/api/a%zz"))
        ⟨"http", "stag", "/base", "q"⟩ [] { urlPath := "/api/a%zz" } "" =
      (⟨"http", "stag", "/base", "q"⟩, none) ∧
    (buildForwardRequestChecked (fun p => !(p == "/api/a%zz"))
        ⟨"http", "stag", "/base", "q"⟩ [] { urlPath := "/api/a%zz" }
        "").1.path ≠ ("/api/a%zz" : String) := by
  refine ⟨by decide, by decide⟩

/-- Claim C10 as amended: on every call on which `http.NewRequest`
accepts the path, `buildForwardRequest` assigns the manager's shared
staging base URL to the staging request and overwrites that URL's path
in place: after the call the manager's `UrlStaging.Path` equals the path
just forwarded (and stays so across later successful calls, so the
configured base path is never restored), the staging request's URL is
that same object, and the forwarded request's query is the staging base
URL's own query, independent of the inbound request's query string.  On
the `http.NewRequest` error branch (a decoded path with an invalid
percent escape or a control byte, e.g. one injected by `morfUri`) the
function returns `nil` and the manager's `UrlStaging` is untouched. -/
theorem buildForwardRequest_url_aliasing :
    (∀ (newRequestOk : String → Bool) (urlStaging : GoUrl)
        (cacheData : List (String × StagKeys)) (req req2 : Request)
        (key key2 : String) (q : String),
        newRequestOk req.urlPath = true →
        (buildForwardRequestChecked newRequestOk urlStaging cacheData req
            key).1.path = req.urlPath ∧
        (buildForwardRequestChecked newRequestOk urlStaging cacheData req
            key).2.map StagRequest.url =
          some (buildForwardRequestChecked newRequestOk urlStaging
            cacheData req key).1 ∧
        (buildForwardRequestChecked newRequestOk urlStaging cacheData req
            key).2.map (fun sr => sr.url.rawQuery) =
          some urlStaging.rawQuery ∧
        (buildForwardRequestChecked newRequestOk urlStaging cacheData req
            key).1.scheme = urlStaging.scheme ∧
        (buildForwardRequestChecked newRequestOk urlStaging cacheData req
            key).1.host = urlStaging.host ∧
        (buildForwardRequestChecked newRequestOk urlStaging cacheData req
            key).1.rawQuery = urlStaging.rawQuery ∧
        buildForwardRequestChecked newRequestOk urlStaging cacheData
            { req with urlRawQuery := q } key =
          buildForwardRequestChecked newRequestOk urlStaging cacheData
            req key ∧
        (newRequestOk req2.urlPath = true →
          (buildForwardRequestChecked newRequestOk
              (buildForwardRequestChecked newRequestOk urlStaging
                cacheData req key).1 cacheData req2 key2).1.path =
            req2.urlPath)) ∧
    (∀ (newRequestOk : String → Bool) (urlStaging : GoUrl)
        (cacheData : List (String × StagKeys)) (req : Request)
        (key : String),
        newRequestOk req.urlPath = false →
        buildForwardRequestChecked newRequestOk urlStaging cacheData req
            key = (urlStaging, none)) := by
  constructor
  · intro newRequestOk urlStaging cacheData req req2 key key2 q hok
    have hred : buildForwardRequestChecked newRequestOk urlStaging
        cacheData req key =
        ((buildForwardRequest urlStaging cacheData req key).1,
          some (buildForwardRequest urlStaging cacheData req key).2) := by
      unfold buildForwardRequestChecked
      rw [hok]
      simp
    have hredq : buildForwardRequestChecked newRequestOk urlStaging
        cacheData { req with urlRawQuery := q } key =
        ((buildForwardRequest urlStaging cacheData req key).1,
          some (buildForwardRequest urlStaging cacheData req key).2) := by
      unfold buildForwardRequestChecked
      rw [show ({ req with urlRawQuery := q } : Request).urlPath =
        req.urlPath from rfl, hok]
      simp
      constructor <;> rfl
    refine ⟨?_, ?_, ?_, ?_, ?_, ?_, ?_, ?_⟩
    · rw [hred]; exact rfl
    · rw [hred]; exact rfl
    · rw [hred]; exact rfl
    · rw [hred]; exact rfl
    · rw [hred]; exact rfl
    · rw [hred]; exact rfl
    · rw [hredq, hred]
    · intro hok2
      have hred2 : buildForwardRequestChecked newRequestOk
          (buildForwardRequestChecked newRequestOk urlStaging cacheData
            req key).1 cacheData req2 key2 =
          ((buildForwardRequest (buildForwardRequestChecked newRequestOk
              urlStaging cacheData req key).1 cacheData req2 key2).1,
            some (buildForwardRequest (buildForwardRequestChecked
              newRequestOk urlStaging cacheData req key).1 cacheData req2
              key2).2) := by
        unfold buildForwardRequestChecked
        rw [hok2]
        simp
      rw [hred2]
      exact rfl
  · intro newRequestOk urlStaging cacheData req key hbad
    unfold buildForwardRequestChecked
    rw [hbad]
    simp

theorem buildForwardRequest_url_aliasing_witness :
    (buildForwardRequestChecked (fun _ => true)
        ⟨"http", "stag", "/base", "q"⟩ [] { urlPath := "/p" } "").1.path =
      ("/p" : String) ∧
    buildForwardRequestChecked (fun _ => false)
        ⟨"http", "stag", "/base", "q"⟩ [] { urlPath := "/p" } "" =
      (⟨"http", "stag", "/base", "q"⟩, none) :=
  ⟨(buildForwardRequest_url_aliasing.1 (fun _ => true)
      ⟨"http", "stag", "/base", "q"⟩ [] { urlPath := "/p" }
      { urlPath := "/p" } "" "" "" rfl).1,
   buildForwardRequest_url_aliasing.2 (fun _ => false)
      ⟨"http", "stag", "/base", "q"⟩ [] { urlPath := "/p" } "" rfl⟩

/-- Claim C4: `cacheResponse` with a non-empty key and status below 400,
whose scanned entry has an empty `sessionKey`, whose captured staging
`Expires` is not in the future and whose captured `Max-Age` is at most
0, deletes the entry for that key from the cache and returns: the heap
is untouched and no entry remains under that key. -/
theorem cacheResponse_logout_delete (st : CacheState) (key : String)
    (resp : HttpResponse) (pExp tA tN : Int)
    (hkey : key ≠ "") (hstatus : resp.statusCode < 400)
    (hsk : (scanCookies (baseEntry st.cacheData key).2
      resp.cookies).1.sessionKey = "")
    (hexp : (scanCookies (baseEntry st.cacheData key).2
      resp.cookies).2.1 ≤ tN)
    (hma : (scanCookies (baseEntry st.cacheData key).2
      resp.cookies).2.2 ≤ 0) :
    cacheResponse st key resp pExp tA tN =
      { st with cacheData := eraseSK st.cacheData key } ∧
    lookupSK (cacheResponse st key resp pExp tA tN).cacheData key =
      none := by
  have hmain : cacheResponse st key resp pExp tA tN =
      { st with cacheData := eraseSK st.cacheData key } := by
    unfold cacheResponse
    rw [if_neg (by push_neg; exact ⟨hkey, by omega⟩)]
    rw [if_pos]
    constructor
    · rw [applyExpiration_sessionKey]
      exact hsk
    · push_neg
      exact ⟨by omega, by omega⟩
  refine ⟨hmain, ?_⟩
  rw [hmain]
  exact lookupSK_eraseSK st.cacheData key

/-- Claim C5: the heap-insertion step `cacheResponse` performs for a
newly allocated entry follows exactly the root-inspection case analysis
of the claim: root token equal to the key means an in-place update of
the root's expiration with re-heapify; an expired root whose token the
cache no longer holds live is reused (token and expiration overwritten,
re-heapify); an expired root whose token is still live has its
expiration refreshed from the cache and the new element pushed;
otherwise the new element is pushed. -/
theorem heapInsert_follows_claim :
    (∀ (cacheData : List (String × StagKeys)) (teq : List TokenExpiration)
        (key : String) (exp tNow : Int),
        heapInsertWithReuse cacheData teq key exp tNow =
          heapInsertSpec cacheData teq key exp tNow) ∧
    (∀ (st : CacheState) (key : String) (resp : HttpResponse)
        (pExp tA tN : Int),
        key ≠ "" → resp.statusCode < 400 →
        lookupSK st.cacheData key = none →
        ¬((applyExpiration (scanCookies (baseEntry st.cacheData key).2
              resp.cookies).1 pExp tA).sessionKey = "" ∧
          ¬((scanCookies (baseEntry st.cacheData key).2
              resp.cookies).2.1 > tN ∨
            (scanCookies (baseEntry st.cacheData key).2
              resp.cookies).2.2 > 0)) →
        (cacheResponse st key resp pExp tA tN).teq =
          heapInsertSpec
            (insertSK st.cacheData key
              (applyExpiration (scanCookies (baseEntry st.cacheData key).2
                resp.cookies).1 pExp tA))
            st.teq key pExp tN) := by
  have hmain : ∀ (cacheData : List (String × StagKeys))
      (teq : List TokenExpiration) (key : String) (exp tNow : Int),
      heapInsertWithReuse cacheData teq key exp tNow =
        heapInsertSpec cacheData teq key exp tNow := by
    intro cacheData teq key exp tNow
    cases teq with
    | nil => rfl
    | cons root rest =>
        cases root with
        | mk rt rtok =>
            unfold heapInsertWithReuse heapInsertSpec
            by_cases h1 : rtok = key
            · simp [h1, teqUpdate]
            · simp only [List.length_cons, List.getD_cons_zero, h1]
              by_cases h2 : rt ≤ tNow
              · cases hl : lookupSK cacheData rtok with
                | none =>
                    simp [h1, h2, hl, cacheHoldsLive, teqUpdate]
                | some fk =>
                    by_cases h3 : fk.Expiration ≤ tNow
                    · simp [h1, h2, hl, h3, cacheHoldsLive, teqUpdate,
                        not_lt.mpr h3]
                    · simp [h1, h2, hl, h3, cacheHoldsLive,
                        cacheCurrentExpiration, teqUpdate, lt_of_not_le h3]
              · simp [h1, h2]
  refine ⟨hmain, ?_⟩
  intro st key resp pExp tA tN hkey hstatus hnew hnodel
  unfold cacheResponse
  rw [if_neg (by push_neg; exact ⟨hkey, by omega⟩)]
  have hbase : (baseEntry st.cacheData key).1 = true := by
    unfold baseEntry
    rw [hnew]
  rw [if_neg hnodel, if_pos hbase]
  exact hmain _ _ _ _ _

theorem heapInsert_follows_claim_witness :
    (cacheResponse ⟨[], [⟨1, "old"⟩]⟩ "k"
        ⟨200, [{ name := "sessionKey", value := "v" }]⟩ 7 0 5).teq =
      heapInsertSpec
        (insertSK ([] : List (String × StagKeys)) "k"
          (applyExpiration
            (scanCookies
              (baseEntry ([] : List (String × StagKeys)) "k").2
              [{ name := "sessionKey", value := "v" }]).1 7 0))
        [⟨1, "old"⟩] "k" 7 5 :=
  heapInsert_follows_claim.2 ⟨[], [⟨1, "old"⟩]⟩ "k"
    ⟨200, [{ name := "sessionKey", value := "v" }]⟩ 7 0 5
    (by decide) (by decide) (by decide) (by decide)

theorem cacheResponse_logout_delete_witness :
    cacheResponse ⟨[("k", { sessionKey := "s" })], []⟩ "k"
        ⟨200, [{ name := "sessionKey" }]⟩ 0 0 5 =
      { (⟨[("k", { sessionKey := "s" })], []⟩ : CacheState) with
        cacheData := eraseSK [("k", { sessionKey := "s" })] "k" } ∧
    lookupSK (cacheResponse ⟨[("k", { sessionKey := "s" })], []⟩ "k"
        ⟨200, [{ name := "sessionKey" }]⟩ 0 0 5).cacheData "k" = none :=
  cacheResponse_logout_delete ⟨[("k", { sessionKey := "s" })], []⟩ "k"
    ⟨200, [{ name := "sessionKey" }]⟩ 0 0 5
    (by decide) (by decide) (by decide) (by decide) (by decide)

/-- Counterexample to claim C2 as stated: (a) with NO cache entry for the
inbound production key, the code adds no cookie at all to the staging
request (the whole cookie block is under `StagKeys != nil`), while the
claim says all inbound cookies are added; (b) with a cache entry whose
`csrfToken` is empty, the code substitutes the empty value and drops the
cookie, while the claim (substitute only when non-empty) keeps the
inbound value. -/
theorem buildForwardRequest_cookies_cex :
    ((buildForwardRequest {} []
        { cookies := [{ name := "foo", value := "bar" }] } "K").2.cookies
        = [] ∧
      rebuildCookiesClaim (lookupSK [] "K")
        [{ name := "foo", value := "bar" }]
        = [{ name := "foo", value := "bar" }]) ∧
    ((buildForwardRequest {} [("K", {})]
        { cookies := [{ name := "csrfToken", value := "C1" }] } "K").2.cookies
        = [] ∧
      rebuildCookiesClaim (lookupSK [("K", {})] "K")
        [{ name := "csrfToken", value := "C1" }]
        = [{ name := "csrfToken", value := "C1" }]) := by
  decide

/-- Claim C2 as amended: the cookies `buildForwardRequest` puts on the
staging request are exactly those described by `rebuildCookiesAmended`:
with a cache entry, each identity cookie's value is replaced by the
entry's corresponding value (even when empty), cookies with an empty
resulting value are dropped, and the rest are added in order; with no
cache entry, no cookie is added. -/
theorem buildForwardRequest_cookies_amended (urlStaging : GoUrl)
    (cacheData : List (String × StagKeys)) (req : Request) (key : String) :
    (buildForwardRequest urlStaging cacheData req key).2.cookies =
      rebuildCookiesAmended (lookupSK cacheData key) req.cookies := by
  show rebuildCookies (lookupSK cacheData key) req.cookies = _
  cases lookupSK cacheData key with
  | none => rfl
  | some sk => exact rebuildCookies_eq_amended sk req.cookies

/-- Counterexample to claim C3 as stated: the pending record built by
`forwardHandler` for an inbound request whose `sessionKey` cookie is
`PROD1`, under a production response `Set-Cookie: sessionKey=PROD2`,
carries `sessionKey = "PROD2"` — and `sendRequest` passes exactly the
record's `sessionKey` field to `cacheResponse` — while the inbound
production key (the record's `requestKey`) is `"PROD1"`; accordingly the
cache update after a successful staging response lands under `PROD2`,
not under the inbound `PROD1`. -/
theorem sendRequest_cache_key_cex :
    forwardHandler (fun _ => none) ⟨"http", "stag", "/", ""⟩
        { cookies := [{ name := "sessionKey", value := "PROD1" }] }
        ["sessionKey=PROD2"] =
      some { req := { cookies := [{ name := "sessionKey",
                                    value := "PROD1" }] },
             requestKey := "PROD1", sessionKey := "PROD2",
             keyExpires := 0 } ∧
    ({ req := { cookies := [{ name := "sessionKey", value := "PROD1" }] },
       requestKey := "PROD1", sessionKey := "PROD2",
       keyExpires := 0 } : PendingRequest).sessionKey ≠
      ({ req := { cookies := [{ name := "sessionKey", value := "PROD1" }] },
         requestKey := "PROD1", sessionKey := "PROD2",
         keyExpires := 0 } : PendingRequest).requestKey ∧
    lookupSK (sendRequestCacheUpdate ⟨[], []⟩
        { req := { cookies := [{ name := "sessionKey", value := "PROD1" }] },
          requestKey := "PROD1", sessionKey := "PROD2", keyExpires := 0 }
        ⟨200, [{ name := "sessionKey", value := "STG2" }]⟩ 0 0).cacheData
      "PROD1" = none ∧
    lookupSK (sendRequestCacheUpdate ⟨[], []⟩
        { req := { cookies := [{ name := "sessionKey", value := "PROD1" }] },
          requestKey := "PROD1", sessionKey := "PROD2", keyExpires := 0 }
        ⟨200, [{ name := "sessionKey", value := "STG2" }]⟩ 0 0).cacheData
      "PROD2" ≠ none := by
  refine ⟨by decide, by decide, ?_, ?_⟩ <;> decide

/-- Claim C3 as amended: for every pending record produced by
`forwardHandler`, the session-key and expiration arguments that
`sendRequest` hands to `cacheResponse` on a successful staging dispatch
are the `sessionKey` value and `Expires` parsed (at intercept time) from
the PRODUCTION RESPONSE's `Set-Cookie` headers — not the inbound
request's `sessionKey` cookie. -/
theorem sendRequest_cache_key_from_response
    (parseRFC1123 : String → Option Int) (urlStaging : GoUrl)
    (req : Request) (respSetCookies : List String) (pr : PendingRequest)
    (st : CacheState) (resp : HttpResponse) (tNowA tNow : Int)
    (h : forwardHandler parseRFC1123 urlStaging req respSetCookies =
      some pr) :
    sendRequestCacheUpdate st pr resp tNowA tNow =
      cacheResponse st (getRespSessionKey parseRFC1123 respSetCookies).1
        resp (getRespSessionKey parseRFC1123 respSetCookies).2
        tNowA tNow := by
  unfold forwardHandler at h
  by_cases hc : urlStaging.scheme = "" ∨ urlStaging.host = ""
  · rw [if_pos hc] at h
    exact absurd h (by simp)
  · rw [if_neg hc] at h
    have hpr := (Option.some.injEq _ _).mp h
    rw [← hpr]
    rfl

theorem sendRequest_cache_key_from_response_witness :
    sendRequestCacheUpdate ⟨[], []⟩
        { req := { cookies := [{ name := "sessionKey", value := "PROD1" }] },
          requestKey := "PROD1", sessionKey := "PROD2", keyExpires := 0 }
        ⟨200, []⟩ 0 0 =
      cacheResponse ⟨[], []⟩
        (getRespSessionKey (fun _ => none) ["sessionKey=PROD2"]).1
        ⟨200, []⟩
        (getRespSessionKey (fun _ => none) ["sessionKey=PROD2"]).2 0 0 :=
  sendRequest_cache_key_from_response (fun _ => none)
    ⟨"http", "stag", "/", ""⟩
    { cookies := [{ name := "sessionKey", value := "PROD1" }] }
    ["sessionKey=PROD2"]
    { req := { cookies := [{ name := "sessionKey", value := "PROD1" }] },
      requestKey := "PROD1", sessionKey := "PROD2", keyExpires := 0 }
    ⟨[], []⟩ ⟨200, []⟩ 0 0 (by decide)

/-- Claim C7: for every path and every outcome of the two random draws,
if the path begins with the mutation-base prefix and has at least one
byte beyond it, the result of `morfUri` has the same length, agrees with
the original everywhere except at the single chosen position — which
lies at or after the end of the prefix — and carries at that position
the drawn byte, a value in `[0, 255]`; if the path does not begin with
the prefix, or has no byte beyond it, the path is unchanged.  (The drawn
byte may coincide with the original byte, in which case the path is
unchanged; "differs only at" is the agreement off that position.) -/
theorem morfUri_spec :
    (∀ (path base : List Nat) (iCh bNew : Nat),
        path.take base.length = base → base.length < path.length →
        iCh < path.length - base.length → bNew < 256 →
        (morfUri path base iCh bNew).length = path.length ∧
        base.length ≤ base.length + iCh ∧
        base.length + iCh < path.length ∧
        (∀ j, j ≠ base.length + iCh →
          (morfUri path base iCh bNew)[j]? = path[j]?) ∧
        (morfUri path base iCh bNew)[base.length + iCh]? = some bNew ∧
        bNew ≤ 255) ∧
    (∀ (path base : List Nat) (iCh bNew : Nat),
        ¬(path.length > base.length ∧ path.take base.length = base) →
        morfUri path base iCh bNew = path) := by
  constructor
  · intro path base iCh bNew hpre hlen hich hb
    have hcond : path.length > base.length ∧ path.take base.length = base :=
      ⟨hlen, hpre⟩
    have hmorf : morfUri path base iCh bNew =
        path.set (base.length + iCh) bNew := by
      unfold morfUri
      rw [if_pos hcond]
    refine ⟨?_, ?_, ?_, ?_, ?_, ?_⟩
    · rw [hmorf]; exact List.length_set path (base.length + iCh) bNew
    · omega
    · omega
    · intro j hj
      rw [hmorf]
      exact List.getElem?_set_ne (fun he => hj he.symm)
    · rw [hmorf, List.getElem?_set_self]
      simp [show base.length + iCh < path.length by omega]
    · omega
  · intro path base iCh bNew hcond
    unfold morfUri
    rw [if_neg hcond]

theorem morfUri_spec_witness :
    (morfUri [47, 97, 112, 105, 47, 120] [47, 97, 112, 105, 47]
        0 65).length = ([47, 97, 112, 105, 47, 120] : List Nat).length ∧
    (morfUri [47, 97, 112, 105, 47, 120] [47, 97, 112, 105, 47]
        0 65)[([47, 97, 112, 105, 47] : List Nat).length + 0]? = some 65 ∧
    morfUri [47, 97, 112, 105] [47, 97, 112, 105, 47] 0 65 =
      [47, 97, 112, 105] :=
  ⟨(morfUri_spec.1 [47, 97, 112, 105, 47, 120] [47, 97, 112, 105, 47] 0 65
      (by decide) (by decide) (by decide) (by decide)).1,
   (morfUri_spec.1 [47, 97, 112, 105, 47, 120] [47, 97, 112, 105, 47] 0 65
      (by decide) (by decide) (by decide) (by decide)).2.2.2.2.1,
   morfUri_spec.2 [47, 97, 112, 105] [47, 97, 112, 105, 47] 0 65
      (by decide)⟩

/-- Claim C9: `morfHeader` is not total: invoked on a request with zero
headers it takes the draw `randInt 0`, which panics (`none`); if the
randomly selected header value is the empty string, the in-value draw is
again `randInt 0`, a panic; and `morfHeader` completes without error
only when the request has at least one header and the selected value is
non-empty. -/
theorem morfHeader_safety :
    (∀ d1 d2 d3 d4, morfHeader [] d1 d2 d3 d4 = none) ∧
    (∀ (hs : List (String × List String)) (d1 d2 d3 d4 : Nat),
        selectedVal hs d1 d2 = some "" →
        morfHeader hs d1 d2 d3 d4 = none) ∧
    (∀ (hs : List (String × List String)) (d1 d2 d3 d4 : Nat)
        (r : List (String × List String)),
        morfHeader hs d1 d2 d3 d4 = some r →
        hs ≠ [] ∧ ∃ v, selectedVal hs d1 d2 = some v ∧ v ≠ "") := by
  refine ⟨?_, ?_, ?_⟩
  · intro d1 d2 d3 d4
    rfl
  · intro hs d1 d2 d3 d4 hsel
    unfold selectedVal at hsel
    unfold morfHeader
    cases h1 : randInt hs.length d1 with
    | none => rfl
    | some iHdr =>
        simp only [h1] at hsel ⊢
        cases h2 : hs[iHdr]? with
        | none => rfl
        | some kv =>
            simp only [h2] at hsel ⊢
            cases h3 : randInt kv.2.length d2 with
            | none => rfl
            | some iVals =>
                simp only [h3] at hsel ⊢
                simp only [hsel]
                have h0 : randInt 0 d3 = none := rfl
                simp [h0]
  · intro hs d1 d2 d3 d4 r hr
    unfold morfHeader at hr
    cases h1 : randInt hs.length d1 with
    | none => simp only [h1] at hr; exact absurd hr (by simp)
    | some iHdr =>
        simp only [h1] at hr
        cases h2 : hs[iHdr]? with
        | none => simp only [h2] at hr; exact absurd hr (by simp)
        | some kv =>
            simp only [h2] at hr
            cases h3 : randInt kv.2.length d2 with
            | none => simp only [h3] at hr; exact absurd hr (by simp)
            | some iVals =>
                simp only [h3] at hr
                cases h4 : kv.2[iVals]? with
                | none => simp only [h4] at hr; exact absurd hr (by simp)
                | some val =>
                    simp only [h4] at hr
                    cases h5 : randInt val.length d3 with
                    | none => simp only [h5] at hr; exact absurd hr (by simp)
                    | some iVal =>
                        constructor
                        · intro hnil
                          rw [hnil] at h1
                          exact absurd h1 (by simp [randInt])
                        · refine ⟨val, ?_, ?_⟩
                          · unfold selectedVal
                            simp only [h1, h2, h3, h4]
                          · intro hv
                            rw [hv] at h5
                            exact absurd h5 (by simp [randInt])

theorem morfHeader_safety_witness :
    morfHeader [] 0 0 0 0 = none ∧
    morfHeader [("Accept", [""])] 0 0 0 0 = none ∧
    ([("Accept", ["x"])] : List (String × List String)) ≠ [] :=
  ⟨morfHeader_safety.1 0 0 0 0,
   morfHeader_safety.2.1 [("Accept", [""])] 0 0 0 0 (by decide),
   (morfHeader_safety.2.2 [("Accept", ["x"])] 0 0 0 0
      [("Accept", [setChar "x" 0 (Char.ofNat 0)])] (by decide)).1⟩

/-- Counterexample to claim C8 as stated: `Init` combines the random
integer and the clock by 64-bit wrapping ADDITION
(`i64rand.Uint64()+uint64(time.Now().UnixNano())`), not by XOR; at the
draw 1 and clock 1 the two combinations produce different prefixes. -/
theorem initForwardPfx_cex :
    initForwardPfx 1 1 = "2-" ∧ initForwardPfxXor 1 1 = "0-" ∧
    initForwardPfx 1 1 ≠ initForwardPfxXor 1 1 := by
  refine ⟨by decide, by decide, by decide⟩

/-- Claim C8 as amended: the per-process prefix is the hexadecimal
formatting of the large random integer combined with the current time by
64-bit wrapping addition (not XOR), followed by `-`; each `createReqId`
call appends the atomically incremented counter in hex, and — starting
from `Init`'s counter value 0, for any feasible number of calls (below
`2^63`, the `int64` range) — the counter values are strictly increasing
and never reused across calls. -/
theorem createReqId_spec :
    (∀ r t : Nat,
        initForwardPfx r t = formatUintHex ((r + t) % 2 ^ 64) ++ "-") ∧
    (∀ (s : ReqIdState) (k : Nat), s.cacheId = 0 →
        ((k : Int) + 1) < 2 ^ 63 →
        (createReqId (createReqIdIter s k)).2 =
          s.forwardPfx ++ formatIntHex ((k : Int) + 1)) ∧
    (∀ (s : ReqIdState) (m n : Nat), s.cacheId = 0 → m < n →
        (n : Int) < 2 ^ 63 →
        (createReqIdIter s m).cacheId < (createReqIdIter s n).cacheId) := by
  refine ⟨fun r t => rfl, ?_, ?_⟩
  · intro s k h0 hk
    have hck : (createReqIdIter s k).cacheId = k :=
      createReqIdIter_cacheId s k h0 (by omega)
    show (createReqIdIter s k).forwardPfx ++
        formatIntHex (wrapInt64 ((createReqIdIter s k).cacheId + 1)) = _
    rw [createReqIdIter_forwardPfx, hck]
    have hw : wrapInt64 ((k : Int) + 1) = (k : Int) + 1 := by
      unfold wrapInt64
      omega
    rw [hw]
  · intro s m n h0 hmn hn
    rw [createReqIdIter_cacheId s m h0 (by push_cast; omega),
        createReqIdIter_cacheId s n h0 hn]
    exact_mod_cast hmn

theorem createReqId_spec_witness :
    (createReqId (createReqIdIter ⟨0, "a-"⟩ 1)).2 =
      ("a-" : String) ++ formatIntHex ((1 : Int) + 1) ∧
    (createReqIdIter ⟨0, "a-"⟩ 0).cacheId <
      (createReqIdIter ⟨0, "a-"⟩ 2).cacheId :=
  ⟨createReqId_spec.2.1 ⟨0, "a-"⟩ 1 rfl (by norm_num),
   createReqId_spec.2.2 ⟨0, "a-"⟩ 0 2 rfl (by norm_num) (by norm_num)⟩

end ForkTraffic
